import Mathlib

/-!
Verification of an on-chain transaction monitoring pipeline.

The program watches pending blockchain transactions, pushes normalized
records through a Redis-backed FIFO queue, scores each record with a fixed
additive risk rule, keeps a bounded most-recent-first alert cache and log
cache, and serves the caches through a threshold-filtered query endpoint.

There are two program versions. The file Web+Redis+render.py (embedded in
namespace Render) retains alerts at score at least 0.8 and serves them with
no query parameter. The file web+Redis+render1.py (embedded in namespace
Render1) retains alerts at score at least 0.3 and filters at query time with
a caller-supplied threshold, validated to lie in the closed interval from 0
to 1, with default 0.8.

Decimal values (ether amounts, gwei gas prices, risk scores) are modelled as
rationals. Python string lower-casing and prefix testing, applied here only
to hexadecimal addresses, are modelled character-wise over the underlying
character lists. The Redis queue is a list: lpush prepends at the head,
rpop removes at the tail, so the pair is a FIFO for a single producer.
-/

namespace WebRender

/-- Model of the Python str.lower method, character by character (the
addresses it is applied to are ASCII hexadecimal strings). -/
def strLower (s : String) : String :=
  String.mk (s.data.map Char.toLower)

/-- Model of the Python str.startswith method: the second string is a
prefix of the first. -/
def strStartsWith (s p : String) : Bool :=
  List.isPrefixOf p.data s.data

/-- TransactionRecord: the normalized record built by the producer and
pushed onto the queue. The source stores it as a JSON object with keys
hash, from, to, value, gas and timestamp; the to field of a
contract-creation transaction is null. -/
structure TxRecord where
  hash : String
  fromAddr : String
  toAddr : Option String
  value : ℚ
  gas : ℚ
  timestamp : String
deriving DecidableEq

/-- AlertRecord: the dictionary the consumer inserts into the alert cache. -/
structure AlertRecord where
  tx_hash : String
  risk_score : ℚ
  fromAddr : String
  toAddr : Option String
  timestamp : String
deriving DecidableEq

/-- JSON values, as far as the queue payloads need them: the producer
serializes a TxRecord into an object of strings, numbers and a possible
null, and the consumer reads the fields back. -/
inductive Json where
  | jstr : String → Json
  | jnum : ℚ → Json
  | jnull : Json
  | jobj : List (String × Json) → Json

/-- Field lookup in a JSON object, first match wins. -/
def jlookup (fields : List (String × Json)) (k : String) : Option Json :=
  match fields with
  | [] => none
  | (k2, v) :: rest => if k2 = k then some v else jlookup rest k

/-- Read a JSON value as a string. -/
def asStr : Json → Option String
  | Json.jstr s => some s
  | _ => none

/-- Read a JSON value as a nullable string. -/
def asOptStr : Json → Option (Option String)
  | Json.jstr s => some (some s)
  | Json.jnull => some none
  | _ => none

/-- Read a JSON value as a number. -/
def asNum : Json → Option ℚ
  | Json.jnum q => some q
  | _ => none

/-- Serialization of a TxRecord for the queue hand-off (the json.dumps of
the tx_data dictionary built by the producer). -/
def encode_tx (tx : TxRecord) : Json :=
  Json.jobj [("hash", Json.jstr tx.hash),
             ("from", Json.jstr tx.fromAddr),
             ("to", match tx.toAddr with
                    | some a => Json.jstr a
                    | none => Json.jnull),
             ("value", Json.jnum tx.value),
             ("gas", Json.jnum tx.gas),
             ("timestamp", Json.jstr tx.timestamp)]

/-- Deserialization of a queue payload (the json.loads on the consumer side
together with its field accesses). -/
def decode_tx (j : Json) : Option TxRecord :=
  match j with
  | Json.jobj fields => do
    let h ← jlookup fields ("hash") >>= asStr
    let f ← jlookup fields ("from") >>= asStr
    let t ← jlookup fields ("to") >>= asOptStr
    let v ← jlookup fields ("value") >>= asNum
    let g ← jlookup fields ("gas") >>= asNum
    let ts ← jlookup fields ("timestamp") >>= asStr
    some { hash := h, fromAddr := f, toAddr := t, value := v, gas := g, timestamp := ts }
  | _ => none

/-- Redis LPUSH on a list value: prepend at the head. -/
def lpush {α : Type} (x : α) (q : List α) : List α := x :: q

/-- Redis RPOP on a list value: remove and return the tail element, or
nothing when the list is empty. -/
def rpop {α : Type} (q : List α) : Option (α × List α) :=
  match q.getLast? with
  | none => none
  | some x => some (x, q.dropLast)

/-- Push a batch of payloads in order, as repeated lpush calls. -/
def pushAll {α : Type} (xs : List α) (q : List α) : List α :=
  xs.foldl (fun acc x => lpush x acc) q

/-- Repeated rpop driven by a fuel counter. -/
def drainFuel {α : Type} : Nat → List α → List α
  | 0, _ => []
  | Nat.succ n, q =>
    match rpop q with
    | none => []
    | some (x, rest) => x :: drainFuel n rest

/-- Pop every element of the queue in rpop order. -/
def drain {α : Type} (q : List α) : List α := drainFuel q.length q

namespace Render

/-- Risk scorer of Web+Redis+render.py: additive rule weights 0.5, 0.3 and
0.3, capped at 1. -/
def simple_risk_score (tx : TxRecord) : ℚ :=
  let score : ℚ := 0
  let score := if tx.value > 100 then score + 0.5 else score
  let score := if tx.gas > 50 then score + 0.3 else score
  let score := if strStartsWith (strLower tx.fromAddr) ("0xabc") then score + 0.3 else score
  min score 1

end Render

namespace Render1

/-- Risk scorer of web+Redis+render1.py, textually identical to the one in
Web+Redis+render.py. -/
def simple_risk_score (tx : TxRecord) : ℚ :=
  let score : ℚ := 0
  let score := if tx.value > 100 then score + 0.5 else score
  let score := if tx.gas > 50 then score + 0.3 else score
  let score := if strStartsWith (strLower tx.fromAddr) ("0xabc") then score + 0.3 else score
  min score 1

/-- Log cache insertion of web+Redis+render1.py: the message goes to the
front of transaction_logs and the last entry is popped once the length
exceeds 20. -/
def log_message (msg : String) (logs : List String) : List String :=
  let logs2 := msg :: logs
  if logs2.length > 20 then logs2.dropLast else logs2

/-- Alert cache insertion of web+Redis+render1.py: insert at index 0, then
truncate to the first 10 entries. -/
def alert_insert (a : AlertRecord) (alerts : List AlertRecord) : List AlertRecord :=
  (a :: alerts).take 10

/-- The alert dictionary the consumer builds from a dequeued transaction and
its score. -/
def mkAlert (tx : TxRecord) (score : ℚ) : AlertRecord :=
  { tx_hash := tx.hash, risk_score := score, fromAddr := tx.fromAddr,
    toAddr := tx.toAddr, timestamp := tx.timestamp }

/-- Minimum score at which the consumer retains a record in the alert cache
(the constant 0.3 on the score test in consume_tx). -/
def RETENTION_MIN : ℚ := 0.3

/-- Default query threshold of the alerts endpoint (the 0.8 in the Query
declaration). -/
def DEFAULT_THRESHOLD : ℚ := 0.8

/-- The module-level mutable state: latest_alerts and transaction_logs,
both most-recent-first. -/
structure PipelineState where
  latest_alerts : List AlertRecord
  transaction_logs : List String
deriving DecidableEq

/-- State at module initialization: both caches empty. -/
def initialState : PipelineState :=
  { latest_alerts := [], transaction_logs := [] }

/-- One iteration of the consumer loop body of web+Redis+render1.py on a
dequeued transaction: score it, log unconditionally, and insert an alert at
the front of the cache when the score reaches RETENTION_MIN. -/
def consume_tx_step (tx : TxRecord) (s : PipelineState) : PipelineState :=
  let score := simple_risk_score tx
  let logs := log_message ("📤 消费交易：" ++ tx.hash ++ " | 风险分：" ++ toString score)
    s.transaction_logs
  if score ≥ RETENTION_MIN then
    { latest_alerts := alert_insert (mkAlert tx score) s.latest_alerts,
      transaction_logs := logs }
  else
    { latest_alerts := s.latest_alerts, transaction_logs := logs }

/-- Consumer loop run over a finite list of dequeued transactions, oldest
first, starting from the initial empty state. -/
def runConsumer (txs : List TxRecord) : PipelineState :=
  txs.foldl (fun s tx => consume_tx_step tx s) initialState

/-- Response body of the alerts endpoint: the threshold used and the
filtered alerts. -/
structure AlertsResponse where
  threshold : ℚ
  alerts : List AlertRecord
deriving DecidableEq

/-- The alerts endpoint of web+Redis+render1.py. A missing query parameter
defaults to DEFAULT_THRESHOLD; the FastAPI Query declaration rejects values
outside the closed interval from 0 to 1 with a validation error before the
handler body runs; otherwise the handler filters the cached alerts by
risk_score at least the threshold, preserving cache order. The state is
returned unchanged: the handler only reads it. -/
def get_alerts (threshold : Option ℚ) (s : PipelineState) :
    Except String AlertsResponse × PipelineState :=
  let t := threshold.getD DEFAULT_THRESHOLD
  if 0 ≤ t ∧ t ≤ 1 then
    (Except.ok { threshold := t,
                 alerts := s.latest_alerts.filter (fun a => decide (a.risk_score ≥ t)) }, s)
  else
    (Except.error ("422 Unprocessable Entity: threshold out of range"), s)

/-- The logs endpoint: returns the log cache, most-recent-first, reading the
state without changing it. -/
def get_logs (s : PipelineState) : List String × PipelineState :=
  (s.transaction_logs, s)

/-- Raw transaction as the chain node returns it: value in wei, gas price
in wei. -/
structure ChainTx where
  hash : String
  fromAddr : String
  toAddr : Option String
  valueWei : ℕ
  gasPriceWei : ℕ
deriving DecidableEq

/-- Normalization done by the producer: value to ether, gas price to gwei,
stamped with the current time. -/
def normalize_tx (tx : ChainTx) (now : String) : TxRecord :=
  { hash := tx.hash, fromAddr := tx.fromAddr, toAddr := tx.toAddr,
    value := (tx.valueWei : ℚ) / 1000000000000000000,
    gas := (tx.gasPriceWei : ℚ) / 1000000000,
    timestamp := now }

/-- One poll cycle of the producer loop of web+Redis+render1.py over a batch
of pending-transaction hashes. Resolution of a hash to full details may
fail (the try block); a failed hash is skipped with no push, no log and no
retry, and the loop moves on to the next hash. A resolved transaction is
normalized, serialized and pushed, and an enqueue line is logged. -/
def listen_batch (resolve : String → Option ChainTx) (now : String) :
    List String → List Json → List String → List Json × List String
  | [], q, logs => (q, logs)
  | h :: rest, q, logs =>
    match resolve h with
    | none => listen_batch resolve now rest q logs
    | some tx =>
      let r := normalize_tx tx now
      listen_batch resolve now rest (lpush (encode_tx r) q)
        (log_message ("📥 入队交易：" ++ r.hash) logs)

end Render1

/-- Invariant of the render1 alert cache: every cached alert carries a risk
score of at least the retention constant. -/
def AlertInv (l : List AlertRecord) : Prop :=
  ∀ a ∈ l, Render1.RETENTION_MIN ≤ a.risk_score

/-- The scorer is the capped sum of three independent indicator weights. -/
theorem simple_risk_score_eq (tx : TxRecord) :
    Render1.simple_risk_score tx =
      min ((if tx.value > 100 then (0.5 : ℚ) else 0) +
           (if tx.gas > 50 then (0.3 : ℚ) else 0) +
           (if strStartsWith (strLower tx.fromAddr) ("0xabc") then (0.3 : ℚ) else 0)) 1 := by
  unfold Render1.simple_risk_score
  split_ifs <;> norm_num

/-- Indicator payments are monotone along implications of their guards. -/
theorem ite_weight_mono {P Q : Prop} [Decidable P] [Decidable Q]
    (w : ℚ) (hw : 0 ≤ w) (h : P → Q) :
    (if P then w else 0) ≤ (if Q then w else 0) := by
  by_cases hp : P
  · simp [hp, h hp]
  · by_cases hq : Q <;> simp [hp, hq, hw]

/-- C2: a transaction satisfying all three scoring rules (value above 100,
gas price above 50, lowercase sender address starting with 0xabc) scores
exactly 1, and a transaction satisfying none of the rules scores exactly 0. -/
theorem score_extremes :
    (∀ tx : TxRecord, tx.value > 100 → tx.gas > 50 →
      strStartsWith (strLower tx.fromAddr) ("0xabc") = true →
      Render1.simple_risk_score tx = 1) ∧
    (∀ tx : TxRecord, ¬ tx.value > 100 → ¬ tx.gas > 50 →
      ¬ strStartsWith (strLower tx.fromAddr) ("0xabc") = true →
      Render1.simple_risk_score tx = 0) := by
  constructor
  · intro tx h1 h2 h3
    rw [simple_risk_score_eq]
    simp only [h1, h2, h3, if_pos, if_true]
    norm_num [min_def]
  · intro tx h1 h2 h3
    rw [simple_risk_score_eq]
    simp only [h1, h2, h3, if_neg, if_false]
    norm_num [min_def]

/-- Witness for score_extremes: a transaction meeting all three rules scores
1 and a transaction meeting none scores 0, at concrete records. -/
theorem score_extremes_witness :
    Render1.simple_risk_score
      { hash := "0x1", fromAddr := "0xABC123", toAddr := some ("0xdef"),
        value := 150, gas := 60, timestamp := "t0" } = 1 ∧
    Render1.simple_risk_score
      { hash := "0x2", fromAddr := "0x999", toAddr := none,
        value := 1, gas := 1, timestamp := "t1" } = 0 := by
  constructor
  · exact score_extremes.1 _ (by norm_num) (by norm_num) (by decide)
  · exact score_extremes.2 _ (by norm_num) (by norm_num) (by decide)

/-- C6: the scorer is monotone in the rule set, and never exceeds 1: if the
rules satisfied by the first transaction are a subset of the rules satisfied
by the second, the second scores at least as much. -/
theorem score_monotone_capped :
    (∀ t1 t2 : TxRecord,
      (t1.value > 100 → t2.value > 100) →
      (t1.gas > 50 → t2.gas > 50) →
      (strStartsWith (strLower t1.fromAddr) ("0xabc") = true →
        strStartsWith (strLower t2.fromAddr) ("0xabc") = true) →
      Render1.simple_risk_score t1 ≤ Render1.simple_risk_score t2) ∧
    (∀ tx : TxRecord, Render1.simple_risk_score tx ≤ 1) := by
  constructor
  · intro t1 t2 h1 h2 h3
    rw [simple_risk_score_eq, simple_risk_score_eq]
    refine min_le_min (add_le_add (add_le_add ?_ ?_) ?_) le_rfl
    · exact ite_weight_mono _ (by norm_num) h1
    · exact ite_weight_mono _ (by norm_num) h2
    · exact ite_weight_mono _ (by norm_num) h3
  · intro tx
    rw [simple_risk_score_eq]
    exact min_le_right _ _

/-- Witness for score_monotone_capped: a no-rule transaction scores no more
than an all-rule transaction. -/
theorem score_monotone_capped_witness :
    Render1.simple_risk_score
      { hash := "0x2", fromAddr := "0x999", toAddr := none,
        value := 1, gas := 1, timestamp := "t1" } ≤
    Render1.simple_risk_score
      { hash := "0x1", fromAddr := "0xABC123", toAddr := some ("0xdef"),
        value := 150, gas := 60, timestamp := "t0" } :=
  score_monotone_capped.1 _ _ (by decide) (by decide) (by decide)

/-- C10: the scoring functions of the two program versions agree on every
transaction record. -/
theorem scorer_versions_agree :
    ∀ tx : TxRecord, Render.simple_risk_score tx = Render1.simple_risk_score tx :=
  fun _ => rfl

/-- C1: for every cache state and every threshold t in the unit interval,
the alerts endpoint succeeds and returns the threshold it used together
with exactly the cached alerts of risk_score at least t (characterized by
order preservation, membership and multiplicity), and an omitted threshold
defaults to 0.8. -/
theorem get_alerts_threshold_query_spec (s : Render1.PipelineState) (t : ℚ)
    (h0 : 0 ≤ t) (h1 : t ≤ 1) :
    ∃ r : Render1.AlertsResponse,
      (Render1.get_alerts (some t) s).1 = Except.ok r ∧
      r.threshold = t ∧
      List.Sublist r.alerts s.latest_alerts ∧
      (∀ a : AlertRecord, a ∈ r.alerts ↔ a ∈ s.latest_alerts ∧ t ≤ a.risk_score) ∧
      (∀ a : AlertRecord, r.alerts.count a =
        if t ≤ a.risk_score then s.latest_alerts.count a else 0) ∧
      Render1.DEFAULT_THRESHOLD = 0.8 ∧
      (Render1.get_alerts none s).1 = (Render1.get_alerts (some (0.8 : ℚ)) s).1 := by
  refine ⟨{ threshold := t,
            alerts := s.latest_alerts.filter (fun a => decide (a.risk_score ≥ t)) },
          ?_, rfl, ?_, ?_, ?_, rfl, rfl⟩
  · simp [Render1.get_alerts, h0, h1]
  · exact List.filter_sublist _
  · intro a
    simp [List.mem_filter, ge_iff_le]
  · intro a
    by_cases hc : t ≤ a.risk_score
    · rw [if_pos hc]
      exact List.count_filter (by simp [ge_iff_le, hc])
    · rw [if_neg hc]
      refine List.count_eq_zero.mpr ?_
      intro hmem
      rw [List.mem_filter] at hmem
      exact hc (by simpa [ge_iff_le] using hmem.2)

/-- Witness for get_alerts_threshold_query_spec at threshold one half and a
one-alert cache. -/
theorem get_alerts_threshold_query_spec_witness :
    (0 : ℚ) ≤ 1/2 ∧ (1 : ℚ)/2 ≤ 1 ∧
    ∃ r : Render1.AlertsResponse,
      (Render1.get_alerts (some (1/2))
        { latest_alerts := [{ tx_hash := "0x1", risk_score := 9/10,
                              fromAddr := "0xABC123", toAddr := none,
                              timestamp := "t0" }],
          transaction_logs := [] }).1 = Except.ok r ∧
      r.threshold = 1/2 ∧
      List.Sublist r.alerts [{ tx_hash := "0x1", risk_score := 9/10,
                               fromAddr := "0xABC123", toAddr := none,
                               timestamp := "t0" }] ∧
      (∀ a : AlertRecord,
        a ∈ r.alerts ↔ a ∈ [({ tx_hash := "0x1", risk_score := 9/10,
                               fromAddr := "0xABC123", toAddr := none,
                               timestamp := "t0" } : AlertRecord)] ∧
          (1 : ℚ)/2 ≤ a.risk_score) ∧
      (∀ a : AlertRecord, r.alerts.count a =
        if (1 : ℚ)/2 ≤ a.risk_score
        then List.count a [({ tx_hash := "0x1", risk_score := 9/10,
                              fromAddr := "0xABC123", toAddr := none,
                              timestamp := "t0" } : AlertRecord)] else 0) ∧
      Render1.DEFAULT_THRESHOLD = 0.8 ∧
      (Render1.get_alerts none
        { latest_alerts := [{ tx_hash := "0x1", risk_score := 9/10,
                              fromAddr := "0xABC123", toAddr := none,
                              timestamp := "t0" }],
          transaction_logs := [] }).1 =
      (Render1.get_alerts (some (0.8 : ℚ))
        { latest_alerts := [{ tx_hash := "0x1", risk_score := 9/10,
                              fromAddr := "0xABC123", toAddr := none,
                              timestamp := "t0" }],
          transaction_logs := [] }).1 :=
  ⟨by norm_num, by norm_num,
   get_alerts_threshold_query_spec _ _ (by norm_num) (by norm_num)⟩

/-- C4: a threshold outside the closed unit interval is rejected by the
alerts endpoint with a validation error, and the pipeline state is
unchanged by the rejected call. -/
theorem get_alerts_out_of_range_rejected (t : ℚ) (s : Render1.PipelineState)
    (h : t < 0 ∨ 1 < t) :
    Render1.get_alerts (some t) s =
      (Except.error ("422 Unprocessable Entity: threshold out of range"), s) := by
  have hc : ¬ (0 ≤ t ∧ t ≤ 1) := by
    rcases h with h | h <;> intro hx <;> rcases hx with ⟨hx0, hx1⟩ <;> linarith
  simp [Render1.get_alerts, hc]

/-- Witness for get_alerts_out_of_range_rejected at threshold 1.1 and the
initial state. -/
theorem get_alerts_out_of_range_rejected_witness :
    ((1.1 : ℚ) < 0 ∨ (1 : ℚ) < 1.1) ∧
    Render1.get_alerts (some (1.1 : ℚ)) Render1.initialState =
      (Except.error ("422 Unprocessable Entity: threshold out of range"),
       Render1.initialState) :=
  ⟨Or.inr (by norm_num),
   get_alerts_out_of_range_rejected (1.1 : ℚ) Render1.initialState (Or.inr (by norm_num))⟩

/-- Unfolding equation for log_message. -/
theorem log_message_def (m : String) (logs : List String) :
    Render1.log_message m logs =
      if (m :: logs).length > 20 then (m :: logs).dropLast else (m :: logs) := rfl

/-- Log insertion keeps the log cache within 20 entries. -/
theorem log_message_length_le (m : String) (logs : List String)
    (h : logs.length ≤ 20) : (Render1.log_message m logs).length ≤ 20 := by
  rw [log_message_def]
  split_ifs with hgt
  · simp only [List.length_dropLast, List.length_cons]
    omega
  · simp only [List.length_cons] at hgt ⊢
    omega

/-- Alert insertion keeps the alert cache within 10 entries. -/
theorem alert_insert_length_le (a : AlertRecord) (l : List AlertRecord) :
    (Render1.alert_insert a l).length ≤ 10 :=
  List.length_take_le 10 _

/-- One consumer step keeps the alert cache within 10 entries. -/
theorem consume_tx_step_alerts_length (tx : TxRecord) (s : Render1.PipelineState)
    (h : s.latest_alerts.length ≤ 10) :
    (Render1.consume_tx_step tx s).latest_alerts.length ≤ 10 := by
  simp only [Render1.consume_tx_step]
  split
  · exact alert_insert_length_le _ _
  · exact h

/-- One consumer step keeps the log cache within 20 entries. -/
theorem consume_tx_step_logs_length (tx : TxRecord) (s : Render1.PipelineState)
    (h : s.transaction_logs.length ≤ 20) :
    (Render1.consume_tx_step tx s).transaction_logs.length ≤ 20 := by
  simp only [Render1.consume_tx_step]
  split
  · exact log_message_length_le _ _ h
  · exact log_message_length_le _ _ h

/-- The consumer fold preserves both cache bounds from any state that
satisfies them. -/
theorem foldl_consume_bounds (txs : List TxRecord) (s : Render1.PipelineState)
    (ha : s.latest_alerts.length ≤ 10) (hl : s.transaction_logs.length ≤ 20) :
    (txs.foldl (fun s tx => Render1.consume_tx_step tx s) s).latest_alerts.length ≤ 10 ∧
    (txs.foldl (fun s tx => Render1.consume_tx_step tx s) s).transaction_logs.length ≤ 20 := by
  induction txs generalizing s with
  | nil => exact ⟨ha, hl⟩
  | cons tx rest ih =>
    simp only [List.foldl_cons]
    exact ih _ (consume_tx_step_alerts_length _ _ ha) (consume_tx_step_logs_length _ _ hl)

/-- C3: over every finite run of the consumer the alert cache holds at most
10 entries and the log cache at most 20, and an insertion into a full cache
keeps the new entry at the front while dropping exactly the last entry, the
least-recently-inserted one of a most-recent-first list. -/
theorem bounded_caches_oldest_eviction :
    (∀ txs : List TxRecord,
      (Render1.runConsumer txs).latest_alerts.length ≤ 10 ∧
      (Render1.runConsumer txs).transaction_logs.length ≤ 20) ∧
    (∀ (a : AlertRecord) (l : List AlertRecord), l.length = 10 →
      Render1.alert_insert a l = a :: l.dropLast) ∧
    (∀ (m : String) (l : List String), l.length = 20 →
      Render1.log_message m l = m :: l.dropLast) := by
  refine ⟨?_, ?_, ?_⟩
  · intro txs
    exact foldl_consume_bounds txs Render1.initialState
      (by simp [Render1.initialState]) (by simp [Render1.initialState])
  · intro a l hlen
    unfold Render1.alert_insert
    rw [List.dropLast_eq_take, hlen]
    rfl
  · intro m l hlen
    rw [log_message_def, if_pos (by simp [hlen])]
    rw [List.dropLast_eq_take, List.dropLast_eq_take, hlen]
    have h2 : (m :: l).length - 1 = 20 := by simp [hlen]
    rw [h2]
    rfl

/-- Witness for bounded_caches_oldest_eviction: bounds after a one-element
run, and both eviction equations on concrete full caches. -/
theorem bounded_caches_oldest_eviction_witness :
    ((Render1.runConsumer []).latest_alerts.length ≤ 10 ∧
     (Render1.runConsumer []).transaction_logs.length ≤ 20) ∧
    Render1.alert_insert
      { tx_hash := "n", risk_score := 1, fromAddr := "f", toAddr := none,
        timestamp := "t" }
      (List.replicate 10
        { tx_hash := "o", risk_score := 1, fromAddr := "f", toAddr := none,
          timestamp := "t" }) =
      { tx_hash := "n", risk_score := 1, fromAddr := "f", toAddr := none,
        timestamp := "t" } ::
      (List.replicate 10
        ({ tx_hash := "o", risk_score := 1, fromAddr := "f", toAddr := none,
           timestamp := "t" } : AlertRecord)).dropLast ∧
    Render1.log_message ("new") (List.replicate 20 ("old")) =
      ("new") :: (List.replicate 20 ("old")).dropLast := by
  refine ⟨bounded_caches_oldest_eviction.1 [], ?_, ?_⟩
  · exact bounded_caches_oldest_eviction.2.1 _ _ (by simp)
  · exact bounded_caches_oldest_eviction.2.2 _ _ (by simp)

/-- C5: the consumer inserts an alert, at the front of the alert cache,
exactly when the score reaches the fixed retention constant RETENTION_MIN;
that constant equals 0.3 and is not a parameter of the consumer, so it is
independent of any query-time threshold. -/
theorem retention_constant_spec :
    (∀ (tx : TxRecord) (s : Render1.PipelineState),
      Render1.RETENTION_MIN ≤ Render1.simple_risk_score tx →
      (Render1.consume_tx_step tx s).latest_alerts =
        (Render1.mkAlert tx (Render1.simple_risk_score tx) :: s.latest_alerts).take 10) ∧
    (∀ (tx : TxRecord) (s : Render1.PipelineState),
      Render1.simple_risk_score tx < Render1.RETENTION_MIN →
      (Render1.consume_tx_step tx s).latest_alerts = s.latest_alerts) ∧
    Render1.RETENTION_MIN = 0.3 := by
  refine ⟨?_, ?_, rfl⟩
  · intro tx s h
    simp [Render1.consume_tx_step, Render1.alert_insert, ge_iff_le, h]
  · intro tx s h
    simp [Render1.consume_tx_step, ge_iff_le, not_le.mpr h]

/-- Witness for retention_constant_spec: a qualifying record is inserted at
the front and a non-qualifying one leaves the cache unchanged, at concrete
inputs. -/
theorem retention_constant_spec_witness :
    (Render1.consume_tx_step
      { hash := "0x1", fromAddr := "0xABC123", toAddr := some ("0xdef"),
        value := 150, gas := 60, timestamp := "t0" }
      Render1.initialState).latest_alerts =
      (Render1.mkAlert
        { hash := "0x1", fromAddr := "0xABC123", toAddr := some ("0xdef"),
          value := 150, gas := 60, timestamp := "t0" }
        (Render1.simple_risk_score
          { hash := "0x1", fromAddr := "0xABC123", toAddr := some ("0xdef"),
            value := 150, gas := 60, timestamp := "t0" }) ::
        Render1.initialState.latest_alerts).take 10 ∧
    (Render1.consume_tx_step
      { hash := "0x2", fromAddr := "0x999", toAddr := none,
        value := 1, gas := 1, timestamp := "t1" }
      Render1.initialState).latest_alerts = Render1.initialState.latest_alerts := by
  constructor
  · apply retention_constant_spec.1
    rw [simple_risk_score_eq]
    have hs : strStartsWith (strLower ("0xABC123")) ("0xabc") = true := by decide
    simp only [hs]
    norm_num [min_def, Render1.RETENTION_MIN]
  · apply retention_constant_spec.2.1
    rw [simple_risk_score_eq]
    have hs : strStartsWith (strLower ("0x999")) ("0xabc") = false := by decide
    simp only [hs]
    norm_num [min_def, Render1.RETENTION_MIN]

/-- One consumer step preserves the alert cache score invariant. -/
theorem consume_tx_step_alert_inv (tx : TxRecord) (s : Render1.PipelineState)
    (h : AlertInv s.latest_alerts) :
    AlertInv (Render1.consume_tx_step tx s).latest_alerts := by
  simp only [Render1.consume_tx_step, AlertInv] at h ⊢
  split
  · rename_i hge
    intro a ha
    simp only [Render1.alert_insert] at ha
    rcases List.mem_cons.mp (List.mem_of_mem_take ha) with rfl | hmem
    · exact hge
    · exact h a hmem
  · exact h

/-- The consumer fold preserves the alert cache score invariant. -/
theorem foldl_consume_alert_inv (txs : List TxRecord) (s : Render1.PipelineState)
    (h : AlertInv s.latest_alerts) :
    AlertInv ((txs.foldl (fun s tx => Render1.consume_tx_step tx s) s).latest_alerts) := by
  induction txs generalizing s with
  | nil => exact h
  | cons tx rest ih =>
    simp only [List.foldl_cons]
    exact ih _ (consume_tx_step_alert_inv _ _ h)

/-- C9: every alert in the render1 cache carries risk_score at least 0.3:
the invariant is preserved by each consumer step, the query operations never
change the state, every reachable consumer state satisfies it, and in
particular no cached alert has score 0. -/
theorem alert_cache_score_invariant :
    (∀ (tx : TxRecord) (s : Render1.PipelineState),
      AlertInv s.latest_alerts → AlertInv (Render1.consume_tx_step tx s).latest_alerts) ∧
    (∀ (th : Option ℚ) (s : Render1.PipelineState), (Render1.get_alerts th s).2 = s) ∧
    (∀ s : Render1.PipelineState, (Render1.get_logs s).2 = s) ∧
    (∀ txs : List TxRecord, AlertInv (Render1.runConsumer txs).latest_alerts) ∧
    (∀ (txs : List TxRecord) (a : AlertRecord),
      a ∈ (Render1.runConsumer txs).latest_alerts → a.risk_score ≠ 0) := by
  refine ⟨consume_tx_step_alert_inv, ?_, fun _ => rfl, ?_, ?_⟩
  · intro th s
    simp only [Render1.get_alerts]
    split <;> rfl
  · intro txs
    exact foldl_consume_alert_inv txs Render1.initialState (by simp [AlertInv, Render1.initialState])
  · intro txs a ha heq
    have h1 := foldl_consume_alert_inv txs Render1.initialState
      (by simp [AlertInv, Render1.initialState]) a ha
    rw [heq] at h1
    norm_num [Render1.RETENTION_MIN] at h1

/-- Witness for alert_cache_score_invariant: the invariant holds at the
initial state and is preserved by a concrete consumer step. -/
theorem alert_cache_score_invariant_witness :
    AlertInv Render1.initialState.latest_alerts ∧
    AlertInv (Render1.consume_tx_step
      { hash := "0x1", fromAddr := "0xABC123", toAddr := some ("0xdef"),
        value := 150, gas := 60, timestamp := "t0" }
      Render1.initialState).latest_alerts :=
  ⟨by simp [AlertInv, Render1.initialState],
   alert_cache_score_invariant.1 _ _ (by simp [AlertInv, Render1.initialState])⟩

/-- Pushing a batch prepends its reverse: lpush builds the list
newest-first. -/
theorem pushAll_eq {α : Type} (xs : List α) (q : List α) :
    pushAll xs q = xs.reverse ++ q := by
  induction xs generalizing q with
  | nil => simp [pushAll]
  | cons x rest ih =>
    simp only [pushAll, List.foldl_cons, List.reverse_cons, List.append_assoc,
      List.singleton_append]
    exact ih (lpush x q)

/-- With enough fuel, repeated rpop returns the queue reversed, tail
first. -/
theorem drainFuel_eq_reverse {α : Type} :
    ∀ (n : Nat) (l : List α), l.length ≤ n → drainFuel n l = l.reverse := by
  intro n
  induction n with
  | zero =>
    intro l hl
    have : l = [] := List.eq_nil_of_length_eq_zero (Nat.le_zero.mp hl)
    subst this
    rfl
  | succ n ih =>
    intro l hl
    rcases List.eq_nil_or_concat l with rfl | ⟨init, last, hconcat⟩
    · rfl
    · rw [List.concat_eq_append] at hconcat
      subst hconcat
      have hpop : rpop (init ++ [last]) = some (last, init) := by
        simp [rpop, List.getLast?_concat]
      simp only [drainFuel, hpop]
      rw [ih init (by simp at hl; omega), List.reverse_concat]

/-- Draining the whole queue returns it reversed. -/
theorem drain_eq_reverse {α : Type} (l : List α) : drain l = l.reverse :=
  drainFuel_eq_reverse l.length l le_rfl

/-- C7: serializing a TransactionRecord for the queue and decoding the
popped payload restores it field for field, and for a single producer the
pop order equals the push order: pushing a batch with lpush and draining
with rpop returns the payloads first-in first-out, decoding back to the
original records. -/
theorem queue_roundtrip_fifo :
    (∀ tx : TxRecord, decode_tx (encode_tx tx) = some tx) ∧
    (∀ txs : List TxRecord,
      drain (pushAll (txs.map encode_tx) []) = txs.map encode_tx) ∧
    (∀ txs : List TxRecord,
      (drain (pushAll (txs.map encode_tx) [])).map decode_tx =
        txs.map (fun tx => some tx)) := by
  have hrt : ∀ tx : TxRecord, decode_tx (encode_tx tx) = some tx := by
    intro tx
    cases tx with
    | mk h f t v g ts => cases t <;> rfl
  have hfifo : ∀ l : List Json, drain (pushAll l []) = l := by
    intro l
    rw [pushAll_eq, List.append_nil, drain_eq_reverse, List.reverse_reverse]
  refine ⟨hrt, fun txs => hfifo _, fun txs => ?_⟩
  rw [hfifo, List.map_map]
  exact List.map_congr_left (fun a _ => hrt a)

/-- C8: a hash whose detail resolution fails is skipped silently by the
producer: nothing is pushed or logged for it, and the rest of the batch is
processed as if the failing hash were absent; the queue contents after a
batch are exactly the encodings of the successfully resolved hashes, in
order. -/
theorem producer_skips_failed_resolution :
    (∀ (resolve : String → Option Render1.ChainTx) (now h : String)
       (rest : List String) (q : List Json) (logs : List String),
      resolve h = none →
      Render1.listen_batch resolve now (h :: rest) q logs =
        Render1.listen_batch resolve now rest q logs) ∧
    (∀ (resolve : String → Option Render1.ChainTx) (now : String)
       (hashes : List String) (q : List Json) (logs : List String),
      (Render1.listen_batch resolve now hashes q logs).1 =
        pushAll ((hashes.filterMap resolve).map
          (fun t => encode_tx (Render1.normalize_tx t now))) q) := by
  constructor
  · intro resolve now h rest q logs hfail
    simp [Render1.listen_batch, hfail]
  · intro resolve now hashes
    induction hashes with
    | nil =>
      intro q logs
      simp [Render1.listen_batch, pushAll]
    | cons h rest ih =>
      intro q logs
      cases hr : resolve h with
      | none =>
        simp only [Render1.listen_batch, hr, List.filterMap_cons_none hr]
        exact ih q logs
      | some tx =>
        simp only [Render1.listen_batch, hr, List.filterMap_cons_some hr,
          List.map_cons, pushAll, List.foldl_cons]
        exact ih _ _

/-- Witness for producer_skips_failed_resolution: with a resolver that fails
on everything, the failing head of a concrete batch is skipped and the rest
is processed unchanged. -/
theorem producer_skips_failed_resolution_witness :
    Render1.listen_batch (fun _ => (none : Option Render1.ChainTx)) ("now")
        (("0xdead") :: [("0xbeef")]) [] [] =
      Render1.listen_batch (fun _ => (none : Option Render1.ChainTx)) ("now")
        [("0xbeef")] [] [] :=
  producer_skips_failed_resolution.1 _ _ _ _ _ _ rfl

end WebRender
